import Mathlib

/-!
Verification development for the cborg CBOR codec (Rust).

The Rust sources are shallowly embedded:
* `u8`/`u64` become `Nat` (with `% 2 ^ n` at the explicit casts),
  `i64` becomes `Int`;
* `Vec<u8>` byte buffers become `List Nat`; a Rust `String` is represented
  by its UTF-8 byte list (Rust string equality coincides with byte equality);
* an `f64` is represented by its IEEE-754 bit pattern (a `Nat`), which is
  exactly what the codec manipulates (`f64::to_bits` / `f64::from_bits`);
* fallible decoding returns `Except DErr`; a Rust `panic!` (process abort)
  is modelled by the distinguished outcome `DErr.panicked`, kept separate
  from the two ordinary error returns `unexpectedValue` / `insufficientBytes`;
* recursion in the decoder is driven by a fuel parameter (`DErr.outOfFuel`
  is the embedding artifact for exhausted fuel; `decode` supplies fuel
  `2 * length + 2`, enough for any input since every recursion level of the
  Rust parser consumes at least one input byte).

Definitions keep the Rust names (`parse_unsigned_int`, `push_major_and_len`,
`encode_compact`, ...) where Lean allows.
-/

namespace Cborg

/-- Rust enum `Simple` from `src/value/types.rs`. -/
inductive Simple where
  | sFalse
  | sTrue
  | null
  | undefined
  | unassigned (x : Nat)
deriving DecidableEq, Repr

/-- Rust enum `Value` from `src/value/types.rs`.  `KeyVal` pairs of a `Map`
are represented as `Value × Value` (first component the key, second the
value).  `Utf8String` holds the UTF-8 bytes of the Rust `String`; `Float`
holds the `f64` bit pattern. -/
inductive Value where
  | unsigned (x : Nat)
  | negative (x : Int)
  | byteString (bs : List Nat)
  | utf8String (bs : List Nat)
  | array (xs : List Value)
  | map (kvs : List (Value × Value))
  | float (bits : Nat)
  | simple (s : Simple)

/-- Rust `Simple::encode` (src/value/types.rs lines 15-33): fixed one-byte
codes for False/True/Null/Undefined; `Unassigned(x)` pushes `major | x` when
`x < 20`, pushes only the header `major | 24` when `x > 31`, and pushes
nothing at all for `x` in 20..=31. -/
def Simple.encode : Simple → List Nat
  | .sFalse => [(7 <<< 5) ||| 20]
  | .sTrue => [(7 <<< 5) ||| 21]
  | .null => [(7 <<< 5) ||| 22]
  | .undefined => [(7 <<< 5) ||| 23]
  | .unassigned x =>
    if x < 20 then [(7 <<< 5) ||| x]
    else if x > 31 then [(7 <<< 5) ||| 24]
    else []

/-- Rust cast `y as u8` for a `usize`/`u64` value. -/
def toU8 (y : Nat) : Nat := y % 256

/-- Rust cast `y as u64` for an `i64` value (two's-complement wrap). -/
def u64OfI64 (y : Int) : Nat := (y % (2 ^ 64 : Int)).toNat

/-- Rust cast `x as i64` for a `u64` value (two's-complement wrap). -/
def i64OfU64 (x : Nat) : Int :=
  if x < 2 ^ 63 then (x : Int) else (x : Int) - 2 ^ 64

/-- The byte-pushing loop of `Value::encode_compact_uint`:
`for i in 0..byte_len { bytes.push((x >> (8 * ((byte_len - 1) - i))) as u8) }`. -/
def bigEndianBytes (x : Nat) (byte_len : Nat) : List Nat :=
  (List.range byte_len).map (fun i => toU8 (x >>> (8 * (byte_len - 1 - i))))

/-- Rust `Value::encode_compact_uint` (src/value/types.rs lines 226-249).
Note the strict comparisons `x < 0xFF`, `x < 0xFFFF`, `x < 0xFFFF_FFFF`
taken verbatim from the source. -/
def Value.encode_compact_uint (x : Nat) (major : Nat) : List Nat :=
  if x ≤ 23 then [(major <<< 5) ||| toU8 x]
  else if x < 0xFF then ((major <<< 5) ||| 24) :: bigEndianBytes x 1
  else if x < 0xFFFF then ((major <<< 5) ||| 25) :: bigEndianBytes x 2
  else if x < 0xFFFFFFFF then ((major <<< 5) ||| 26) :: bigEndianBytes x 4
  else ((major <<< 5) ||| 27) :: bigEndianBytes x 8

/-- Rust `Value::push_major_and_len` (src/value/types.rs lines 251-290),
transcribed arm by arm; note the `0x1_0000..=0xFFFF_FFFF` arm pushes only
three length bytes (`len >> 16`, `len >> 8`, `len`), and the final arm
pushes four. -/
def Value.push_major_and_len (len : Nat) (item_code : Nat) : List Nat :=
  if len ≤ 23 then [(item_code <<< 5) ||| toU8 len]
  else if len ≤ 0xFF then [(item_code <<< 5) ||| 24, toU8 len]
  else if len ≤ 0xFFFF then [(item_code <<< 5) ||| 25, toU8 (len >>> 8), toU8 len]
  else if len ≤ 0xFFFFFFFF then
    [(item_code <<< 5) ||| 26, toU8 (len >>> 16), toU8 (len >>> 8), toU8 len]
  else
    [(item_code <<< 5) ||| 27, toU8 (len >>> 24), toU8 (len >>> 16), toU8 (len >>> 8), toU8 len]

/-- Rust `Value::add_bytes` (src/value/types.rs lines 292-297). -/
def Value.add_bytes (x : List Nat) (item_code : Nat) : List Nat :=
  Value.push_major_and_len x.length item_code ++ x

mutual

/-- Rust `Value::encode_compact` (src/value/types.rs lines 299-342).
The float arm pushes header `7 << 5 | 27` followed by the eight bytes of
`f64::to_bits` (our representation already is the bit pattern). -/
def Value.encode_compact : Value → List Nat
  | .unsigned x => Value.encode_compact_uint x 0
  | .negative x => Value.encode_compact_uint (u64OfI64 (-1 - x)) 1
  | .byteString x => Value.add_bytes x 2
  | .utf8String x => Value.add_bytes x 3
  | .array x => Value.push_major_and_len x.length 4 ++ Value.encodeElems x
  | .map x => Value.push_major_and_len x.length 5 ++ Value.encodeKVs x
  | .float x => ((7 <<< 5) ||| 27) :: bigEndianBytes x 8
  | .simple x => x.encode

/-- The element loop of `Value::encode_compact` for `Value::Array`. -/
def Value.encodeElems : List Value → List Nat
  | [] => []
  | v :: t => v.encode_compact ++ Value.encodeElems t

/-- The key/value loop of `Value::encode_compact` for `Value::Map`. -/
def Value.encodeKVs : List (Value × Value) → List Nat
  | [] => []
  | kv :: t => kv.1.encode_compact ++ kv.2.encode_compact ++ Value.encodeKVs t

end

/-- Rust `Value::encode` (src/value/types.rs line 344): delegates to
`encode_compact`. -/
def Value.encode (v : Value) : List Nat := v.encode_compact

/-- Decoder outcome.  `unexpectedValue` and `insufficientBytes` are the two
`ErrorKind`s the Rust code returns through its `Result` channel;
`panicked` models a Rust `panic!` (process abort, not an error return);
`outOfFuel` is an artifact of the fuel-indexed embedding, never produced
for the fuel `decode` supplies. -/
inductive DErr where
  | unexpectedValue
  | insufficientBytes
  | panicked
  | outOfFuel
deriving DecidableEq, Repr

/-- Rust `read_type` (src/lib.rs lines 72-76): split a leading byte into
major (bits 7-5) and minor (bits 4-0). -/
def read_type (b : Nat) : Nat × Nat := (b >>> 5, b &&& 31)

/-- The big-endian accumulation loop of `parse_unsigned_int` / `parse_float`
(`value <<= 8; value |= byte`), failing with `InsufficientBytes` when the
stream ends. -/
def readBE : Nat → Nat → List Nat → Except DErr (Nat × List Nat)
  | 0, acc, bytes => .ok (acc, bytes)
  | n + 1, acc, bytes =>
    match bytes with
    | [] => .error .insufficientBytes
    | b :: tl => readBE n ((acc <<< 8) ||| b) tl

/-- Rust `parse_unsigned_int` (src/lib.rs lines 78-102).  Note the guard
`minor < 1 || minor > 27` taken verbatim from the source: minor 0 is
rejected with `UnexpectedValue`. -/
def parse_unsigned_int (minor : Nat) (bytes : List Nat) : Except DErr (Nat × List Nat) :=
  if minor < 1 ∨ minor > 27 then .error .unexpectedValue
  else if minor = 27 then readBE 8 0 bytes
  else if minor = 26 then readBE 4 0 bytes
  else if minor = 25 then readBE 2 0 bytes
  else if minor = 24 then readBE 1 0 bytes
  else .ok (minor, bytes)

/-- Rust `parse_negative_int` (src/lib.rs lines 104-107): `-1 - (val as i64)`
(the `i64` subtraction never overflows, so plain `Int` arithmetic agrees). -/
def parse_negative_int (minor : Nat) (bytes : List Nat) : Except DErr (Int × List Nat) :=
  (parse_unsigned_int minor bytes).map (fun p => (-1 - i64OfU64 p.1, p.2))

/-- The payload loop of `parse_byte_string`: consume exactly `n` bytes. -/
def readN : Nat → List Nat → Except DErr (List Nat × List Nat)
  | 0, bytes => .ok ([], bytes)
  | _ + 1, [] => .error .insufficientBytes
  | n + 1, b :: tl => (readN n tl).map (fun p => (b :: p.1, p.2))

/-- The indefinite-length chunk loop of `parse_byte_string` (src/lib.rs
lines 111-130): read a chunk header byte until `0xFF`, take its minor field
(the chunk's major type is discarded, as in the source), read that many
payload bytes, and concatenate.  `gas` is an embedding artifact bounding the
iteration count; each iteration consumes at least one byte, so the
`bytes.length + 1` supplied by `parse_byte_string` never runs out. -/
def parseChunks : Nat → List Nat → Except DErr (List Nat × List Nat)
  | 0, _ => .error .outOfFuel
  | gas + 1, bytes =>
    match bytes with
    | [] => .error .insufficientBytes
    | val :: tl =>
      if val = 0xFF then .ok ([], tl)
      else do
        let (length, r1) ← parse_unsigned_int (read_type val).2 tl
        let (chunk, r2) ← readN length r1
        let (restChunks, r3) ← parseChunks gas r2
        .ok (chunk ++ restChunks, r3)

/-- Rust `parse_byte_string` (src/lib.rs lines 109-143). -/
def parse_byte_string (minor : Nat) (bytes : List Nat) : Except DErr (List Nat × List Nat) :=
  if minor = 31 then parseChunks (bytes.length + 1) bytes
  else do
    let (length, r) ← parse_unsigned_int minor bytes
    readN length r

/-- A UTF-8 continuation byte (10xxxxxx). -/
def isUtf8Cont (c : Nat) : Bool := decide (0x80 ≤ c ∧ c ≤ 0xBF)

/-- Models the validation performed by Rust `String::from_utf8` (strict
RFC 3629 UTF-8: no overlong forms, no surrogates, max U+10FFFF). -/
def validUtf8 : List Nat → Bool
  | [] => true
  | b :: rest =>
    if b ≤ 0x7F then validUtf8 rest
    else if 0xC2 ≤ b ∧ b ≤ 0xDF then
      match rest with
      | c1 :: r => isUtf8Cont c1 && validUtf8 r
      | [] => false
    else if 0xE0 ≤ b ∧ b ≤ 0xEF then
      match rest with
      | c1 :: c2 :: r =>
        (if b = 0xE0 then decide (0xA0 ≤ c1 ∧ c1 ≤ 0xBF)
         else if b = 0xED then decide (0x80 ≤ c1 ∧ c1 ≤ 0x9F)
         else isUtf8Cont c1) && isUtf8Cont c2 && validUtf8 r
      | _ => false
    else if 0xF0 ≤ b ∧ b ≤ 0xF4 then
      match rest with
      | c1 :: c2 :: c3 :: r =>
        (if b = 0xF0 then decide (0x90 ≤ c1 ∧ c1 ≤ 0xBF)
         else if b = 0xF4 then decide (0x80 ≤ c1 ∧ c1 ≤ 0x8F)
         else isUtf8Cont c1) && isUtf8Cont c2 && isUtf8Cont c3 && validUtf8 r
      | _ => false
    else false

/-- Rust `parse_utf8_string` (src/lib.rs lines 145-152): parse the bytes and
run them through `String::from_utf8`; on invalid UTF-8 the source executes
`panic!`, modelled by the `panicked` outcome. -/
def parse_utf8_string (minor : Nat) (bytes : List Nat) : Except DErr (List Nat × List Nat) := do
  let (binary_val, r) ← parse_byte_string minor bytes
  if validUtf8 binary_val then .ok (binary_val, r) else .error .panicked

/-- Rust `parse_simple` (src/lib.rs lines 225-243), including the source's
`_ => InsufficientBytes` arm for minor 25-31. -/
def parse_simple (minor : Nat) (bytes : List Nat) : Except DErr (Simple × List Nat) :=
  if minor ≤ 19 then .ok (.unassigned minor, bytes)
  else if minor = 20 then .ok (.sFalse, bytes)
  else if minor = 21 then .ok (.sTrue, bytes)
  else if minor = 22 then .ok (.null, bytes)
  else if minor = 23 then .ok (.undefined, bytes)
  else if minor = 24 then
    match bytes with
    | [] => .error .insufficientBytes
    | x :: tl =>
      if 32 ≤ x ∧ x ≤ 255 then .ok (.unassigned x, tl) else .error .unexpectedValue
  else .error .insufficientBytes

/-- Rust `parse_float` (src/lib.rs lines 196-223): `panic!` outside minor
25-27, otherwise read 2/4/8 big-endian bytes and bit-cast
(`f64::from_bits` is the identity on our bit-pattern representation).
The final arm transcribes the source's unreachable
`_ => UnexpectedValue` arm of the `num_bytes` match. -/
def parse_float (minor : Nat) (bytes : List Nat) : Except DErr (Nat × List Nat) :=
  if minor < 25 ∨ minor > 27 then .error .panicked
  else if minor = 27 then readBE 8 0 bytes
  else if minor = 26 then readBE 4 0 bytes
  else if minor = 25 then readBE 2 0 bytes
  else .error .unexpectedValue

mutual

/-- Rust `parse_value` (src/lib.rs lines 245-279).  The first argument is
the embedding's fuel (decremented at every recursive step; `decode` supplies
enough for any input).  The major-4 and major-5 branches inline Rust
`parse_array` (lines 154-172) and `parse_map` (lines 174-194); major 6 reads
exactly one further byte and recurses on it, discarding the tag. -/
def parse_value : Nat → Nat → List Nat → Except DErr (Value × List Nat)
  | 0, _, _ => .error .outOfFuel
  | f + 1, type_byte, bytes =>
    let major := (read_type type_byte).1
    let minor := (read_type type_byte).2
    if major = 0 then (parse_unsigned_int minor bytes).map (fun p => (.unsigned p.1, p.2))
    else if major = 1 then (parse_negative_int minor bytes).map (fun p => (.negative p.1, p.2))
    else if major = 2 then (parse_byte_string minor bytes).map (fun p => (.byteString p.1, p.2))
    else if major = 3 then (parse_utf8_string minor bytes).map (fun p => (.utf8String p.1, p.2))
    else if major = 4 then
      if minor = 31 then (parseElemsIndef f bytes).map (fun p => (.array p.1, p.2))
      else do
        let (length, r) ← parse_unsigned_int minor bytes
        let (vs, r2) ← parseElems f length r
        .ok (.array vs, r2)
    else if major = 5 then
      if minor = 31 then (parseKVsIndef f bytes).map (fun p => (.map p.1, p.2))
      else do
        let (length, r) ← parse_unsigned_int minor bytes
        let (kvs, r2) ← parseKVs f length r
        .ok (.map kvs, r2)
    else if major = 6 then
      match bytes with
      | [] => .error .insufficientBytes
      | b :: tl => parse_value f b tl
    else if major = 7 then
      if minor ≤ 24 then (parse_simple minor bytes).map (fun p => (.simple p.1, p.2))
      else (parse_float minor bytes).map (fun p => (.float p.1, p.2))
    else .error .unexpectedValue

/-- The definite-length element loop of Rust `parse_array`: read a leading
byte then a value (`decode_element`), `n` times. -/
def parseElems : Nat → Nat → List Nat → Except DErr (List Value × List Nat)
  | _, 0, bytes => .ok ([], bytes)
  | 0, _ + 1, _ => .error .outOfFuel
  | f + 1, n + 1, bytes =>
    match bytes with
    | [] => .error .insufficientBytes
    | b :: tl => do
      let (v, r) ← parse_value f b tl
      let (vs, r2) ← parseElems f n r
      .ok (v :: vs, r2)

/-- The indefinite-length element loop of Rust `parse_array`
(`while let Some(item) = decode_next(iter)?`): stop on a `0xFF` break byte
in element position. -/
def parseElemsIndef : Nat → List Nat → Except DErr (List Value × List Nat)
  | 0, _ => .error .outOfFuel
  | f + 1, bytes =>
    match bytes with
    | [] => .error .insufficientBytes
    | b :: tl =>
      if b = 0xFF then .ok ([], tl)
      else do
        let (v, r) ← parse_value f b tl
        let (vs, r2) ← parseElemsIndef f r
        .ok (v :: vs, r2)

/-- The definite-length entry loop of Rust `parse_map`: read key then value,
`n` times. -/
def parseKVs : Nat → Nat → List Nat → Except DErr (List (Value × Value) × List Nat)
  | _, 0, bytes => .ok ([], bytes)
  | 0, _ + 1, _ => .error .outOfFuel
  | f + 1, n + 1, bytes =>
    match bytes with
    | [] => .error .insufficientBytes
    | kb :: tl => do
      let (k, r) ← parse_value f kb tl
      match r with
      | [] => .error .insufficientBytes
      | vb :: tl2 => do
        let (v, r2) ← parse_value f vb tl2
        let (kvs, r3) ← parseKVs f n r2
        .ok ((k, v) :: kvs, r3)

/-- The indefinite-length entry loop of Rust `parse_map`: a `0xFF` break
byte in key position terminates the map. -/
def parseKVsIndef : Nat → List Nat → Except DErr (List (Value × Value) × List Nat)
  | 0, _ => .error .outOfFuel
  | f + 1, bytes =>
    match bytes with
    | [] => .error .insufficientBytes
    | b :: tl =>
      if b = 0xFF then .ok ([], tl)
      else do
        let (k, r) ← parse_value f b tl
        match r with
        | [] => .error .insufficientBytes
        | vb :: tl2 => do
          let (v, r2) ← parse_value f vb tl2
          let (kvs, r3) ← parseKVsIndef f r2
          .ok ((k, v) :: kvs, r3)

end

/-- Rust `decode` / `decode_iter` (src/lib.rs lines 306-318): read the
leading type byte and parse one value; trailing bytes are ignored.
Fuel `2 * length + 2` suffices because every fuel decrement in
`parse_value` and its loops comes with at least one consumed input byte,
except at most one array/map-header step per nesting level. -/
def decode (bytes : List Nat) : Except DErr Value :=
  match bytes with
  | [] => .error .insufficientBytes
  | b :: tl => (parse_value (2 * tl.length + 2) b tl).map Prod.fst

/-- Rust `Value::major` (src/value/types.rs lines 146-158). -/
def Value.major : Value → Nat
  | .unsigned _ => 0
  | .negative _ => 1
  | .byteString _ => 2
  | .utf8String _ => 3
  | .array _ => 4
  | .map _ => 5
  | .float _ => 7
  | .simple _ => 7

/-- The f64 bit pattern is a NaN: exponent field all ones, mantissa
nonzero. -/
def f64IsNan (bits : Nat) : Bool :=
  decide ((bits >>> 52) % 2048 = 2047 ∧ bits % 2 ^ 52 ≠ 0)

/-- IEEE-754 `==` on `f64` bit patterns, as used by Rust's
`PartialEq for f64`: any NaN compares unequal to everything (itself
included); positive and negative zero compare equal; otherwise two doubles
are equal exactly when their bit patterns are. -/
def f64Eq (a b : Nat) : Bool :=
  if f64IsNan a || f64IsNan b then false
  else (if a = 0x8000000000000000 then 0 else a) = (if b = 0x8000000000000000 then 0 else b)

mutual

/-- Rust `impl PartialEq for Value` (src/value/types.rs lines 70-90): an
early `false` on differing major types, then structural comparison, with
`f64` semantics (`f64Eq`) on floats. -/
def valueEq (a b : Value) : Bool :=
  if a.major ≠ b.major then false
  else
    match a, b with
    | .unsigned x, .unsigned y => x == y
    | .negative x, .negative y => x == y
    | .byteString x, .byteString y => x == y
    | .utf8String x, .utf8String y => x == y
    | .array x, .array y => listValueEq x y
    | .map x, .map y => kvListEq x y
    | .float x, .float y => f64Eq x y
    | .simple x, .simple y => x == y
    | _, _ => false

/-- `Vec<Value>` equality: equal lengths and elementwise `valueEq`. -/
def listValueEq : List Value → List Value → Bool
  | [], [] => true
  | x :: xs, y :: ys => valueEq x y && listValueEq xs ys
  | _, _ => false

/-- `Vec<KeyVal>` equality via the derived `PartialEq for KeyVal`
(key and val fields compared with `valueEq`). -/
def kvListEq : List (Value × Value) → List (Value × Value) → Bool
  | [], [] => true
  | kv :: xs, kv2 :: ys => valueEq kv.1 kv2.1 && valueEq kv.2 kv2.2 && kvListEq xs ys
  | _, _ => false

end

/-- Models `HashMap<Value, Value>::insert`: replace the value of an existing
key that compares `==` (`valueEq`) to the new key, else append the entry.
`Value`'s `Hash` is over the float bit pattern, so hashing never separates
keys that `valueEq` identifies; lookup outcome is decided by `==` alone. -/
def hashMapInsert (m : List (Value × Value)) (k v : Value) : List (Value × Value) :=
  if m.any (fun kv => valueEq kv.1 k) then
    m.map (fun kv => if valueEq kv.1 k then (kv.1, v) else kv)
  else m ++ [(k, v)]

/-- Models `HashMap<Value, Value>` lookup: succeeds exactly when some stored
key compares `==` (`valueEq`) to the probe. -/
def hashMapGet (m : List (Value × Value)) (k : Value) : Option Value :=
  (m.find? (fun kv => valueEq kv.1 k)).map Prod.snd

/-- Rust `Value::get_hash_map` (src/value/types.rs lines 209-224): a `Map`
value's entries are inserted in order into a fresh `HashMap`. -/
def Value.get_hash_map : Value → Option (List (Value × Value))
  | .map kvs => some (kvs.foldl (fun m kv => hashMapInsert m kv.1 kv.2) [])
  | _ => none

/-- Rust `Value::get_string` (src/value/types.rs lines 188-193). -/
def Value.get_string : Value → Option (List Nat)
  | .utf8String x => some x
  | _ => none

/-! ## Conversion layer (src/value/mod.rs)

The `FromValue` capability is implemented for a fixed family of target
types; `Ty` enumerates that family and `Ty.denote` gives each target's Lean
representation (integers as `Nat`/`Int`, `f64`/`f32` by bit pattern,
`String` by its UTF-8 bytes, `HashMap`/`BTreeMap` by the ordered sequence
of entries the Rust code inserts — two runs that produce the same insertion
sequence produce equal Rust maps).  The primitive float conversions
(`x as f64` etc.) are parameters of the embedding (`FloatCasts`): both Rust
code paths invoke the same machine primitive, and every theorem below is
proved for an arbitrary choice of these parameters. -/

/-- The primitive numeric-to-float casts used by the `f64`/`f32` targets,
kept abstract (results are bit patterns). -/
structure FloatCasts where
  u64ToF64 : Nat → Nat
  i64ToF64 : Int → Nat
  u64ToF32 : Nat → Nat
  i64ToF32 : Int → Nat
  f64ToF32 : Nat → Nat

/-- The target types for which the Rust code implements `FromValue`
(plus `Vec<u8>`, whose impl is separate from the generic `Vec<T>`). -/
inductive Ty where
  | value
  | tU64
  | tU32
  | tUsize
  | tI64
  | tI32
  | tI8
  | tIsize
  | tF64
  | tF32
  | tBool
  | tString
  | tBytes
  | tVec (t : Ty)
  | tHashMap (k v : Ty)
  | tBTreeMap (k v : Ty)
  | tPair (k v : Ty)

/-- Lean representation of each target type (64-bit platform: `usize`
ranges as `u64`, `isize` as `i64`). -/
def Ty.denote : Ty → Type
  | .value => Value
  | .tU64 => Nat
  | .tU32 => Nat
  | .tUsize => Nat
  | .tI64 => Int
  | .tI32 => Int
  | .tI8 => Int
  | .tIsize => Int
  | .tF64 => Nat
  | .tF32 => Nat
  | .tBool => Bool
  | .tString => List Nat
  | .tBytes => List Nat
  | .tVec t => List t.denote
  | .tHashMap k v => List (k.denote × v.denote)
  | .tBTreeMap k v => List (k.denote × v.denote)
  | .tPair k v => k.denote × v.denote

/-- Termination measure for the conversion functions: nesting depth of a
target type. -/
@[simp] def Ty.depth : Ty → Nat
  | .tVec t => t.depth + 2
  | .tHashMap k v => k.depth + v.depth + 2
  | .tBTreeMap k v => k.depth + v.depth + 2
  | .tPair k v => k.depth + v.depth + 1
  | _ => 0

/-- Rust `impl TryFrom<Value> for u8` (src/value/mod.rs lines 11-26),
the consuming impl. -/
def u8_try_from (value : Value) : Option Nat :=
  match value with
  | .unsigned x => if x ≤ 255 then some x else none
  | .negative x => if 0 ≤ x ∧ x ≤ 255 then some x.toNat else none
  | _ => none

/-- Rust `impl TryFrom<&Value> for u8` (src/value/mod.rs lines 28-43),
the borrowing impl. -/
def u8_try_from_ref (value : Value) : Option Nat :=
  match value with
  | .unsigned x => if x ≤ 255 then some x else none
  | .negative x => if 0 ≤ x ∧ x ≤ 255 then some x.toNat else none
  | _ => none

/-- The element loop of `impl FromValue for Vec<u8>`, `from_value`
(src/value/mod.rs lines 411-427): keep the elements `u8::try_from`
accepts. -/
def bytesLoopV : List Value → List Nat
  | [] => []
  | x :: xs =>
    match u8_try_from x with
    | some y => y :: bytesLoopV xs
    | none => bytesLoopV xs

/-- The element loop of `impl FromValue for Vec<u8>`, `from_ref`
(src/value/mod.rs lines 429-445). -/
def bytesLoopR : List Value → List Nat
  | [] => []
  | x :: xs =>
    match u8_try_from_ref x with
    | some y => y :: bytesLoopR xs
    | none => bytesLoopR xs

mutual

/-- The consuming conversion path: Rust `FromValue::from_value` for every
implementing target type (src/value/mod.rs).  Each arm transcribes the
corresponding `impl` block's `from_value`. -/
def fromValue (c : FloatCasts) : (t : Ty) → Value → Option t.denote
  | .value, v => some v
  | .tU64, v =>
    match v with
    | .unsigned x => some x
    | .negative x => if 0 ≤ x then some x.toNat else none
    | _ => none
  | .tU32, v =>
    match v with
    | .unsigned x => if x ≤ 0xFFFFFFFF then some x else none
    | .negative x => if 0 ≤ x ∧ x ≤ 0xFFFFFFFF then some x.toNat else none
    | _ => none
  | .tUsize, v =>
    match v with
    | .unsigned x => some x
    | .negative x => if 0 ≤ x then some x.toNat else none
    | _ => none
  | .tI64, v =>
    match v with
    | .unsigned x => if x ≤ 0x7FFFFFFFFFFFFFFF then some (x : Int) else none
    | .negative x => some x
    | _ => none
  | .tI32, v =>
    match v with
    | .unsigned x => if x ≤ 0x7FFFFFFF then some (x : Int) else none
    | .negative x => if -0x80000000 ≤ x ∧ x ≤ 0x7FFFFFFF then some x else none
    | _ => none
  | .tI8, v =>
    match v with
    | .unsigned x => if x ≤ 0x7F then some (x : Int) else none
    | .negative x => if -0x80 ≤ x ∧ x ≤ 0x7F then some x else none
    | _ => none
  | .tIsize, v =>
    match v with
    | .unsigned x => if x ≤ 0x7FFFFFFFFFFFFFFF then some (x : Int) else none
    | .negative x => some x
    | _ => none
  | .tF64, v =>
    match v with
    | .unsigned x => some (c.u64ToF64 x)
    | .negative x => some (c.i64ToF64 x)
    | .float x => some x
    | _ => none
  | .tF32, v =>
    match v with
    | .unsigned x => some (c.u64ToF32 x)
    | .negative x => some (c.i64ToF32 x)
    | .float x => some (c.f64ToF32 x)
    | _ => none
  | .tBool, v =>
    match v with
    | .simple .sTrue => some true
    | .simple .sFalse => some false
    | _ => none
  | .tString, v => v.get_string
  | .tBytes, v =>
    match v with
    | .byteString bs => some bs
    | .array xs => some (bytesLoopV xs)
    | _ => none
  | .tVec t, v =>
    match v with
    | .array xs => some (vecLoopV c t xs)
    | .map m => some (vecMapLoop c t m)
    | _ => none
  | .tHashMap k v', vv =>
    match vv with
    | .map m => some (hashMapLoopV c k v' m)
    | _ => none
  | .tBTreeMap k v', vv =>
    match vv with
    | .map m => some (btreeMapLoopV c k v' m)
    | _ => none
  | .tPair k v', vv =>
    match vv with
    | .map m =>
      if m.length ≠ 1 then none
      else
        match m with
        | [] => none
        | kv :: _ =>
          match fromValue c k kv.1 with
          | some kk =>
            match fromValue c v' kv.2 with
            | some vv2 => some (kk, vv2)
            | none => none
          | none => none
    | _ => none
termination_by t _ => (t.depth, 0)

/-- The array-element loop of `impl<T> FromValue for Vec<T>::from_value`
(src/value/mod.rs lines 373-381): failed elements are skipped. -/
def vecLoopV (c : FloatCasts) (t : Ty) : List Value → List t.denote
  | [] => []
  | x :: xs =>
    match fromValue c t x with
    | some y => y :: vecLoopV c t xs
    | none => vecLoopV c t xs
termination_by xs => (t.depth + 1, xs.length)

/-- The map-source loop of `impl<T> FromValue for Vec<T>` (src/value/mod.rs
lines 361-369 and 387-395): each entry is wrapped as a singleton map and
converted with `T::from_value` — both the consuming and the borrowing impl
call `from_value` here. -/
def vecMapLoop (c : FloatCasts) (t : Ty) : List (Value × Value) → List t.denote
  | [] => []
  | kv :: m =>
    match fromValue c t (Value.map [kv]) with
    | some y => y :: vecMapLoop c t m
    | none => vecMapLoop c t m
termination_by m => (t.depth + 1, m.length)

/-- The entry loop of `impl FromValue for HashMap<K, V>::from_value`
(src/value/mod.rs lines 263-269): entries whose key or value fails to
convert are skipped; the result is the sequence of performed inserts. -/
def hashMapLoopV (c : FloatCasts) (k v : Ty) :
    List (Value × Value) → List (k.denote × v.denote)
  | [] => []
  | kv :: m =>
    match fromValue c k kv.1 with
    | some kk =>
      match fromValue c v kv.2 with
      | some vv => (kk, vv) :: hashMapLoopV c k v m
      | none => hashMapLoopV c k v m
    | none => hashMapLoopV c k v m
termination_by m => (k.depth + v.depth + 1, m.length)

/-- The entry loop of `impl FromValue for BTreeMap<K, V>::from_value`
(src/value/mod.rs lines 307-313). -/
def btreeMapLoopV (c : FloatCasts) (k v : Ty) :
    List (Value × Value) → List (k.denote × v.denote)
  | [] => []
  | kv :: m =>
    match fromValue c k kv.1 with
    | some kk =>
      match fromValue c v kv.2 with
      | some vv => (kk, vv) :: btreeMapLoopV c k v m
      | none => btreeMapLoopV c k v m
    | none => btreeMapLoopV c k v m
termination_by m => (k.depth + v.depth + 1, m.length)

end

mutual

/-- The borrowing conversion path: Rust `FromValue::from_ref` for every
implementing target type (src/value/mod.rs).  Each arm transcribes the
corresponding `impl` block's `from_ref`; leaf data is copied out of the
borrowed `Value`. -/
def fromRef (c : FloatCasts) : (t : Ty) → Value → Option t.denote
  | .value, v => some v
  | .tU64, v =>
    match v with
    | .unsigned x => some x
    | .negative x => if 0 ≤ x then some x.toNat else none
    | _ => none
  | .tU32, v =>
    match v with
    | .unsigned x => if x ≤ 0xFFFFFFFF then some x else none
    | .negative x => if 0 ≤ x ∧ x ≤ 0xFFFFFFFF then some x.toNat else none
    | _ => none
  | .tUsize, v =>
    match v with
    | .unsigned x => some x
    | .negative x => if 0 ≤ x then some x.toNat else none
    | _ => none
  | .tI64, v =>
    match v with
    | .unsigned x => if x ≤ 0x7FFFFFFFFFFFFFFF then some (x : Int) else none
    | .negative x => some x
    | _ => none
  | .tI32, v =>
    match v with
    | .unsigned x => if x ≤ 0x7FFFFFFF then some (x : Int) else none
    | .negative x => if -0x80000000 ≤ x ∧ x ≤ 0x7FFFFFFF then some x else none
    | _ => none
  | .tI8, v =>
    match v with
    | .unsigned x => if x ≤ 0x7F then some (x : Int) else none
    | .negative x => if -0x80 ≤ x ∧ x ≤ 0x7F then some x else none
    | _ => none
  | .tIsize, v =>
    match v with
    | .unsigned x => if x ≤ 0x7FFFFFFFFFFFFFFF then some (x : Int) else none
    | .negative x => some x
    | _ => none
  | .tF64, v =>
    match v with
    | .unsigned x => some (c.u64ToF64 x)
    | .negative x => some (c.i64ToF64 x)
    | .float x => some x
    | _ => none
  | .tF32, v =>
    match v with
    | .unsigned x => some (c.u64ToF32 x)
    | .negative x => some (c.i64ToF32 x)
    | .float x => some (c.f64ToF32 x)
    | _ => none
  | .tBool, v =>
    match v with
    | .simple .sTrue => some true
    | .simple .sFalse => some false
    | _ => none
  | .tString, v => v.get_string
  | .tBytes, v =>
    match v with
    | .byteString bs => some bs
    | .array xs => some (bytesLoopR xs)
    | _ => none
  | .tVec t, v =>
    match v with
    | .array xs => some (vecLoopR c t xs)
    | .map m => some (vecMapLoop c t m)
    | _ => none
  | .tHashMap k v', vv =>
    match vv with
    | .map m => some (hashMapLoopR c k v' m)
    | _ => none
  | .tBTreeMap k v', vv =>
    match vv with
    | .map m => some (btreeMapLoopR c k v' m)
    | _ => none
  | .tPair k v', vv =>
    match vv with
    | .map m =>
      if m.length ≠ 1 then none
      else
        match m with
        | [] => none
        | kv :: _ =>
          match fromRef c k kv.1 with
          | some kk =>
            match fromRef c v' kv.2 with
            | some vv2 => some (kk, vv2)
            | none => none
          | none => none
    | _ => none
termination_by t _ => (t.depth, 0)

/-- The array-element loop of `impl<T> FromValue for Vec<T>::from_ref`
(src/value/mod.rs lines 399-407): elements converted with `T::from_ref`. -/
def vecLoopR (c : FloatCasts) (t : Ty) : List Value → List t.denote
  | [] => []
  | x :: xs =>
    match fromRef c t x with
    | some y => y :: vecLoopR c t xs
    | none => vecLoopR c t xs
termination_by xs => (t.depth + 1, xs.length)

/-- The entry loop of `impl FromValue for HashMap<K, V>::from_ref`
(src/value/mod.rs lines 282-288). -/
def hashMapLoopR (c : FloatCasts) (k v : Ty) :
    List (Value × Value) → List (k.denote × v.denote)
  | [] => []
  | kv :: m =>
    match fromRef c k kv.1 with
    | some kk =>
      match fromRef c v kv.2 with
      | some vv => (kk, vv) :: hashMapLoopR c k v m
      | none => hashMapLoopR c k v m
    | none => hashMapLoopR c k v m
termination_by m => (k.depth + v.depth + 1, m.length)

/-- The entry loop of `impl FromValue for BTreeMap<K, V>::from_ref`
(src/value/mod.rs lines 325-331). -/
def btreeMapLoopR (c : FloatCasts) (k v : Ty) :
    List (Value × Value) → List (k.denote × v.denote)
  | [] => []
  | kv :: m =>
    match fromRef c k kv.1 with
    | some kk =>
      match fromRef c v kv.2 with
      | some vv => (kk, vv) :: btreeMapLoopR c k v m
      | none => btreeMapLoopR c k v m
    | none => btreeMapLoopR c k v m
termination_by m => (k.depth + v.depth + 1, m.length)

end

/-- Whether a `Value` variant is an accepted source shape for the sequence
target `Vec<T>`: `Array`, or `Map` (the compatibility shape). -/
def Value.isSequenceSource : Value → Bool
  | .array _ => true
  | .map _ => true
  | _ => false

/-- The array-element loop of `impl<T> FromValue for Vec<T>::from_value`,
parametric in the element capability `T::from_value` (argument `f`):
elements `f` rejects are skipped. -/
def vecLoop (f : Value → Option α) : List Value → List α
  | [] => []
  | x :: xs =>
    match f x with
    | some y => y :: vecLoop f xs
    | none => vecLoop f xs

/-- The map-source loop of `impl<T> FromValue for Vec<T>::from_value`,
parametric in the element capability: each entry is wrapped as a singleton
map and converted. -/
def vecMapLoopG (f : Value → Option α) : List (Value × Value) → List α
  | [] => []
  | kv :: m =>
    match f (Value.map [kv]) with
    | some y => y :: vecMapLoopG f m
    | none => vecMapLoopG f m

/-- Rust `impl<T: FromValue> FromValue for Vec<T>`, `from_value`
(src/value/mod.rs lines 358-382), parametric in the element capability
`T::from_value` (argument `f`). -/
def Vec.from_value (f : Value → Option α) : Value → Option (List α)
  | .array xs => some (vecLoop f xs)
  | .map m => some (vecMapLoopG f m)
  | _ => none

/-! ## Theorems -/

/-- Claim C1: the round-trip law `decode (encode v) = v` is broken by the
code at every value whose compact header has minor field 0:
`parse_unsigned_int` rejects minor 0 with `UnexpectedValue`, so the
encodings of `Unsigned(0)` and `Negative(-1)` (bytes `0x00` and `0x20`)
fail to decode.  The other listed negative instances (-24, -25,
i64::MIN + 1) and definite aggregates avoiding minor 0 do round-trip. -/
theorem round_trip_fails_at_minor_zero :
    decode (Value.encode (.negative (-1))) = .error .unexpectedValue ∧
    decode (Value.encode (.unsigned 0)) = .error .unexpectedValue ∧
    decode (Value.encode (.negative (-24))) = .ok (.negative (-24)) ∧
    decode (Value.encode (.negative (-25))) = .ok (.negative (-25)) ∧
    decode (Value.encode (.negative (-9223372036854775807))) =
      .ok (.negative (-9223372036854775807)) ∧
    decode (Value.encode (.array [.unsigned 1, .utf8String [0x41]])) =
      .ok (.array [.unsigned 1, .utf8String [0x41]]) :=
  ⟨rfl, rfl, rfl, rfl, rfl, rfl⟩

/-- Claim C2: `encode (Unsigned n)` is not minimal at the boundaries 255,
65535 and 2^32 - 1: the strict comparisons in `encode_compact_uint`
(`x < 0xFF` etc.) push these values into the next-wider header, e.g.
`Unsigned(255)` becomes the three bytes `19 00 FF` although the two-byte
form `18 FF` is legal and decodes to the same value.  The remaining listed
values do get the shortest legal header. -/
theorem encode_unsigned_not_minimal_at_255 :
    Value.encode (.unsigned 255) = [0x19, 0x00, 0xFF] ∧
    decode [0x18, 0xFF] = .ok (.unsigned 255) ∧
    Value.encode (.unsigned 65535) = [0x1A, 0x00, 0x00, 0xFF, 0xFF] ∧
    Value.encode (.unsigned 4294967295) =
      [0x1B, 0x00, 0x00, 0x00, 0x00, 0xFF, 0xFF, 0xFF, 0xFF] ∧
    Value.encode (.unsigned 0) = [0x00] ∧
    Value.encode (.unsigned 23) = [0x17] ∧
    Value.encode (.unsigned 24) = [0x18, 24] ∧
    Value.encode (.unsigned 256) = [0x19, 0x01, 0x00] ∧
    Value.encode (.unsigned 65536) = [0x1A, 0x00, 0x01, 0x00, 0x00] ∧
    Value.encode (.unsigned 4294967296) =
      [0x1B, 0x00, 0x00, 0x00, 0x01, 0x00, 0x00, 0x00, 0x00] :=
  ⟨rfl, rfl, rfl, rfl, rfl, rfl, rfl, rfl, rfl, rfl⟩

/-- Claim C3: `parse_unsigned_int` behaves as the claim states for minor
1-27 and 28-31, but its guard `minor < 1 || minor > 27` rejects minor 0
with `UnexpectedValue` instead of returning `Ok(0)`. -/
theorem parse_unsigned_int_rejects_minor_zero :
    parse_unsigned_int 0 [7] = .error .unexpectedValue ∧
    parse_unsigned_int 5 [7] = .ok (5, [7]) ∧
    parse_unsigned_int 23 [] = .ok (23, []) ∧
    parse_unsigned_int 24 [200] = .ok (200, []) ∧
    parse_unsigned_int 25 [1, 2] = .ok (258, []) ∧
    parse_unsigned_int 26 [1, 2, 3, 4] = .ok (16909060, []) ∧
    parse_unsigned_int 27 [1, 2, 3, 4, 5, 6, 7, 8] = .ok (72623859790382856, []) ∧
    parse_unsigned_int 28 [1] = .error .unexpectedValue ∧
    parse_unsigned_int 31 [1] = .error .unexpectedValue ∧
    parse_unsigned_int 24 [] = .error .insufficientBytes ∧
    parse_unsigned_int 26 [1, 2] = .error .insufficientBytes :=
  ⟨rfl, rfl, rfl, rfl, rfl, rfl, rfl, rfl, rfl, rfl, rfl⟩

/-- Claim C4: `push_major_and_len` uses the claimed minimal-width selection
in every arm except `0x1_0000..=0xFFFF_FFFF`, where it pushes minor 26
followed by only THREE length bytes (`len >> 16`, `len >> 8`, `len`) —
the `len >> 24` byte is missing — while the claim (and the decoder, which
reads four bytes after minor 26) calls for exactly four. -/
theorem push_major_and_len_three_bytes_at_minor_26 :
    Value.push_major_and_len 65536 2 = [0x5A, 0x01, 0x00, 0x00] ∧
    Value.push_major_and_len 4294967295 2 = [0x5A, 0xFF, 0xFF, 0xFF] ∧
    Value.push_major_and_len 0 2 = [0x40] ∧
    Value.push_major_and_len 23 2 = [0x57] ∧
    Value.push_major_and_len 24 2 = [0x58, 24] ∧
    Value.push_major_and_len 255 2 = [0x58, 0xFF] ∧
    Value.push_major_and_len 256 2 = [0x59, 0x01, 0x00] ∧
    Value.push_major_and_len 65535 2 = [0x59, 0xFF, 0xFF] ∧
    Value.push_major_and_len 4294967296 2 = [0x5B, 0x00, 0x00, 0x00, 0x00] :=
  ⟨rfl, rfl, rfl, rfl, rfl, rfl, rfl, rfl, rfl⟩

/-- Claim C5: on a text string whose payload is not valid UTF-8 the decoder
does not return a decode error: `parse_utf8_string` hits the source's
`panic!` (modelled by the `panicked` outcome, distinct from the two
ordinary error returns), aborting the process. -/
theorem invalid_utf8_aborts :
    decode [0x61, 0xFF] = .error .panicked ∧
    decode [0x62, 0xC3, 0x28] = .error .panicked ∧
    decode [0x61, 0x41] = .ok (.utf8String [0x41]) :=
  ⟨rfl, rfl, rfl⟩

/-- Claim C9: `Simple::encode` emits the fixed one-byte codes, the direct
form for `Unassigned(x)` with `x < 20`, and nothing for 20-31; but for
`x > 31` it emits ONLY the extended header `0xF8` — the value byte `x` is
never pushed, so the output is one byte, not the claimed two (the decoder's
minor-24 path expects a following byte, as the last conjunct shows). -/
theorem simple_encode_drops_payload_byte :
    Simple.encode (.unassigned 32) = [0xF8] ∧
    Simple.encode (.unassigned 255) = [0xF8] ∧
    Simple.encode .sFalse = [0xF4] ∧
    Simple.encode .sTrue = [0xF5] ∧
    Simple.encode .null = [0xF6] ∧
    Simple.encode .undefined = [0xF7] ∧
    Simple.encode (.unassigned 0) = [0xE0] ∧
    Simple.encode (.unassigned 19) = [0xF3] ∧
    Simple.encode (.unassigned 20) = [] ∧
    Simple.encode (.unassigned 31) = [] ∧
    decode [0xF8, 40] = .ok (.simple (.unassigned 40)) ∧
    decode [0xF8] = .error .insufficientBytes :=
  ⟨rfl, rfl, rfl, rfl, rfl, rfl, rfl, rfl, rfl, rfl, rfl, rfl⟩

/-- Claim C8: a leading byte with major type 6 (any of the 32 minor values
`m`) makes the decoder consume exactly one further byte, treat it as the
new leading byte, recursively decode from it, and return only the wrapped
content — the tag is discarded and no bytes of a multi-byte tag number are
ever consumed.  Stated for every fuel level and every byte stream. -/
theorem tag_consumes_exactly_one_byte (m : Fin 32) (f : Nat) (bytes : List Nat) :
    parse_value (f + 1) (6 * 32 + m.val) bytes =
      (match bytes with
       | [] => .error .insufficientBytes
       | b :: tl => parse_value f b tl) := by
  fin_cases m <;> rfl

/-- Claim C10: `Value`'s equality is not reflexive: with
`v = Float(f64::NAN)` (bit pattern 0x7FF8000000000000), `v == v` is false,
and consequently an entry inserted under a NaN key into the `HashMap`
produced by `get_hash_map` can never be found by an equal probe. -/
theorem value_eq_not_reflexive_at_nan :
    valueEq (.float 0x7FF8000000000000) (.float 0x7FF8000000000000) = false ∧
    (Value.map [(.float 0x7FF8000000000000, .unsigned 1)]).get_hash_map =
      some [(.float 0x7FF8000000000000, .unsigned 1)] ∧
    hashMapGet [(.float 0x7FF8000000000000, .unsigned 1)]
      (.float 0x7FF8000000000000) = none ∧
    valueEq (.unsigned 5) (.unsigned 5) = true :=
  ⟨rfl, rfl, rfl, rfl⟩

/-- The element loop keeps exactly the convertible elements, in order. -/
theorem vecLoop_eq_filterMap {α : Type} (f : Value → Option α) (xs : List Value) :
    vecLoop f xs = xs.filterMap f := by
  induction xs with
  | nil => rfl
  | cons x xs ih =>
    simp only [vecLoop, List.filterMap_cons]
    cases f x <;> simp [ih]

/-- Claim C6: for any element capability `f` (the `T::from_value` of the
target element type), converting `Array(xs)` to `Vec<T>` succeeds and
yields exactly the subsequence of elements `f` accepts, in original order
(`List.filterMap f xs`); and the conversion as a whole returns `None`
exactly on values that are not an accepted sequence source shape
(neither `Array` nor `Map`). -/
theorem vec_from_value_lossy_skip (α : Type) (f : Value → Option α) :
    (∀ xs : List Value, Vec.from_value f (.array xs) = some (xs.filterMap f)) ∧
    (∀ v : Value, (Vec.from_value f v).isSome = v.isSequenceSource) := by
  constructor
  · intro xs
    simp [Vec.from_value, vecLoop_eq_filterMap]
  · intro v
    cases v <;> rfl

/-- The consuming and borrowing `u8` conversions agree. -/
theorem u8_try_from_eq_ref (v : Value) : u8_try_from v = u8_try_from_ref v := rfl

/-- The consuming and borrowing `Vec<u8>` element loops agree. -/
theorem bytesLoop_V_eq_R (xs : List Value) : bytesLoopV xs = bytesLoopR xs := by
  induction xs with
  | nil => rfl
  | cons x xs ih =>
    simp only [bytesLoopV, bytesLoopR, u8_try_from_eq_ref, ih]

/-- The `Vec<T>` element loops agree when the element conversions do. -/
theorem vecLoop_V_eq_R (c : FloatCasts) (t : Ty)
    (h : ∀ v, fromValue c t v = fromRef c t v) (xs : List Value) :
    vecLoopV c t xs = vecLoopR c t xs := by
  induction xs with
  | nil => simp [vecLoopV, vecLoopR]
  | cons x xs ih =>
    simp only [vecLoopV, vecLoopR, h, ih]

/-- The `HashMap` entry loops agree when the key and value conversions
do. -/
theorem hashMapLoop_V_eq_R (c : FloatCasts) (k w : Ty)
    (hk : ∀ v, fromValue c k v = fromRef c k v)
    (hw : ∀ v, fromValue c w v = fromRef c w v)
    (m : List (Value × Value)) :
    hashMapLoopV c k w m = hashMapLoopR c k w m := by
  induction m with
  | nil => simp [hashMapLoopV, hashMapLoopR]
  | cons kv m ih =>
    simp only [hashMapLoopV, hashMapLoopR, hk, hw, ih]

/-- The `BTreeMap` entry loops agree when the key and value conversions
do. -/
theorem btreeMapLoop_V_eq_R (c : FloatCasts) (k w : Ty)
    (hk : ∀ v, fromValue c k v = fromRef c k v)
    (hw : ∀ v, fromValue c w v = fromRef c w v)
    (m : List (Value × Value)) :
    btreeMapLoopV c k w m = btreeMapLoopR c k w m := by
  induction m with
  | nil => simp [btreeMapLoopV, btreeMapLoopR]
  | cons kv m ih =>
    simp only [btreeMapLoopV, btreeMapLoopR, hk, hw, ih]

/-- Claim C7: for every supported target type `t`, every `Value` `v`, and
every choice of the primitive float casts, the consuming conversion
`from_value` and the borrowing conversion `from_ref` produce identical
logical results: both `Some` with equal payloads or both `None`. -/
theorem from_value_eq_from_ref (c : FloatCasts) (t : Ty) (v : Value) :
    fromValue c t v = fromRef c t v := by
  induction t generalizing v with
  | value => cases v <;> simp [fromValue, fromRef]
  | tU64 => cases v <;> simp [fromValue, fromRef]
  | tU32 => cases v <;> simp [fromValue, fromRef]
  | tUsize => cases v <;> simp [fromValue, fromRef]
  | tI64 => cases v <;> simp [fromValue, fromRef]
  | tI32 => cases v <;> simp [fromValue, fromRef]
  | tI8 => cases v <;> simp [fromValue, fromRef]
  | tIsize => cases v <;> simp [fromValue, fromRef]
  | tF64 => cases v <;> simp [fromValue, fromRef]
  | tF32 => cases v <;> simp [fromValue, fromRef]
  | tBool =>
    cases v
    case simple s => cases s <;> simp [fromValue, fromRef]
    all_goals simp [fromValue, fromRef]
  | tString => cases v <;> simp [fromValue, fromRef]
  | tBytes => cases v <;> simp [fromValue, fromRef, bytesLoop_V_eq_R]
  | tVec t ih => cases v <;> simp [fromValue, fromRef, vecLoop_V_eq_R c t ih]
  | tHashMap k w ihk ihw =>
    cases v <;> simp [fromValue, fromRef, hashMapLoop_V_eq_R c k w ihk ihw]
  | tBTreeMap k w ihk ihw =>
    cases v <;> simp [fromValue, fromRef, btreeMapLoop_V_eq_R c k w ihk ihw]
  | tPair k w ihk ihw =>
    cases v
    case map m =>
      cases m with
      | nil => simp [fromValue, fromRef]
      | cons kv m2 =>
        cases m2 with
        | cons kv2 m3 => simp [fromValue, fromRef]
        | nil =>
          simp only [fromValue, fromRef, ihk, ihw, List.length_cons, List.length_nil]
    all_goals simp [fromValue, fromRef]

end Cborg
